import Mathlib

/-!
# LoyaltyX integration-API write path: a shallow embedding

This file embeds the core of the LoyaltyX loyalty-program backend — the
point ledger, the idempotency store, the API-key authenticator, the webhook
dispatcher and delivery worker, and the integration/dashboard mutation
handlers — as executable Lean definitions over an explicit database state,
and proves the spec's testable properties about them.

The database is modelled as lists of rows; Prisma `findFirst`/`findUnique`
become `List.find?`, `update` on a unique id becomes a guarded `List.map`,
`create` appends a row with a fresh id drawn from a counter, and
`$transaction` blocks become sequential pure state updates.  `await`ed
storage operations that may throw are modelled, where a claim depends on
them, by an explicit Boolean oracle.  Monetary amounts are rationals
(JavaScript numbers used as decimals), timestamps are naturals
(milliseconds), and HTTP responses are a status code paired with a
structured body.
-/

/-- A customer row: `{id, businessId, email, name, phone?, points}`. -/
structure Customer where
  id : Nat
  businessId : Nat
  email : String
  name : String
  phone : Option String
  points : Int
  deriving Repr, DecidableEq

/-- A transaction row: `{id, businessId, customerId, amount, date}`. -/
structure Transaction where
  id : Nat
  businessId : Nat
  customerId : Nat
  amount : ℚ
  date : Nat
  deriving Repr, DecidableEq

/-- A reward row: `{id, businessId, title, pointsRequired}`. -/
structure Reward where
  id : Nat
  businessId : Nat
  title : String
  pointsRequired : Int
  deriving Repr, DecidableEq

/-- A redemption row: `{id, customerId, rewardId, date}`. -/
structure Redemption where
  id : Nat
  customerId : Nat
  rewardId : Nat
  date : Nat
  deriving Repr, DecidableEq

/-- An API key row: `{id, businessId, key, isActive, environment, lastUsedAt}`. -/
structure ApiKey where
  id : Nat
  businessId : Nat
  key : String
  isActive : Bool
  environment : String
  lastUsedAt : Option Nat
  deriving Repr, DecidableEq

/-- A webhook registration row: `{id, businessId, url, events, isActive, secret}`.
The `events` field is stored serialized in the source and parsed with
`JSON.parse`; we model it directly as the parsed list of event names. -/
structure Webhook where
  id : Nat
  businessId : Nat
  url : String
  events : List String
  isActive : Bool
  secret : String
  deriving Repr, DecidableEq

/-- Status of a webhook delivery record. -/
inductive DeliveryStatus where
  | pending
  | success
  | failed
  deriving Repr, DecidableEq

/-- The event data serialized into a webhook payload by the handlers. -/
inductive EventData where
  | txn (transactionId customerId : Nat) (amount : ℚ) (pointsAwarded : Int)
  | pts (customerId : Nat) (pointsAwarded newBalance : Int) (reason : String)
  | red (redemptionId customerId rewardId : Nat) (pointsDeducted newBalance : Int)
  | cust (c : Customer)
  deriving Repr, DecidableEq

/-- The serialized webhook payload `{event, data, businessId, timestamp}`. -/
structure WebhookPayload where
  event : String
  data : EventData
  businessId : Nat
  timestamp : Nat
  deriving Repr, DecidableEq

/-- A webhook delivery row. -/
structure WebhookDelivery where
  id : Nat
  webhookId : Nat
  event : String
  payload : WebhookPayload
  status : DeliveryStatus
  attempts : Nat
  lastAttemptAt : Option Nat
  deriving Repr, DecidableEq

/-- A structured HTTP response body, standing for the JSON bodies the
handlers build. -/
inductive RespBody where
  | errMsg (msg : String)
  | insufficientPoints (required available shortage : Int)
  | txnCreated (transactionId customerId : Nat) (amount : ℚ)
      (pointsAwarded newBalance : Int) (date : Nat)
  | redemptionCreated (redemptionId customerId rewardId : Nat)
      (pointsDeducted newBalance : Int) (date : Nat)
  | customerUpserted (id : Nat) (name email : String) (phone : Option String)
      (points : Int)
  | txnDeleted (pointsRemoved : Int)
  | txnUpdated (transactionId : Nat) (pointsAdjustment : Option Int)
  deriving Repr, DecidableEq

/-- An HTTP response: status code plus body. -/
structure Resp where
  status : Nat
  body : RespBody
  deriving Repr, DecidableEq

/-- An idempotency record: `{key, businessId, response, expiresAt}`; the
`response` field holds the cached `{status, body}` pair. -/
structure IdempotencyRecord where
  key : String
  businessId : Nat
  response : Resp
  expiresAt : Nat
  deriving Repr, DecidableEq

/-- The whole relational state, one list of rows per model, plus the
autoincrement counter supplying fresh ids. -/
structure DB where
  customers : List Customer
  transactions : List Transaction
  rewards : List Reward
  redemptions : List Redemption
  apiKeys : List ApiKey
  webhooks : List Webhook
  deliveries : List WebhookDelivery
  idempotencyKeys : List IdempotencyRecord
  nextId : Nat
  deriving Repr, DecidableEq

/-- `src/lib/points.ts` `calculatePoints`: `Math.floor(amount / 100)`.
`Rat.floor` is the executable floor on ℚ; it agrees with `Int.floor`
(see `points_truncation`). -/
def calculatePoints (amount : ℚ) : Int :=
  Rat.floor (amount / 100)

/-- `src/lib/points.ts` `canRedeemPoints`. -/
def canRedeemPoints (customerPoints requiredPoints : Int) : Bool :=
  requiredPoints ≤ customerPoints

/-- `src/lib/idempotency.ts` `checkIdempotency`: look up a non-expired
record by `(key, businessId)`; return its cached response, or `none` when
the header is absent or no live record exists.  (The source's catch-all
that degrades storage errors to `none` needs no extra case here: reads are
pure.) -/
def checkIdempotency (db : DB) (idempotencyKey : Option String)
    (businessId : Nat) (now : Nat) : Option Resp :=
  match idempotencyKey with
  | none => none
  | some k =>
    match db.idempotencyKeys.find?
        (fun r => r.key == k && r.businessId == businessId
          && decide (now < r.expiresAt)) with
    | some r => some r.response
    | none => none

/-- 24-hour expiry used by `storeIdempotentResponse`, in milliseconds. -/
def idempotencyTTL : Nat := 24 * 60 * 60 * 1000

/-- `src/lib/idempotency.ts` `storeIdempotentResponse`: record the final
response under `(key, businessId)` with a 24-hour expiry. -/
def storeIdempotentResponse (db : DB) (idempotencyKey : String)
    (businessId : Nat) (response : Resp) (now : Nat) : DB :=
  { db with idempotencyKeys := db.idempotencyKeys
      ++ [{ key := idempotencyKey, businessId := businessId,
            response := response, expiresAt := now + idempotencyTTL }] }

/-- `src/lib/idempotency.ts` `cleanupExpiredIdempotencyKeys`: delete every
record whose `expiresAt` is in the past, returning the removed count. -/
def cleanupExpiredIdempotencyKeys (db : DB) (now : Nat) : Nat × DB :=
  let kept := db.idempotencyKeys.filter (fun r => !decide (r.expiresAt < now))
  (db.idempotencyKeys.length - kept.length, { db with idempotencyKeys := kept })

/-- Result record of `authenticateApiKey` in `src/lib/api-key-auth.ts`. -/
structure ApiKeyAuthResult where
  success : Bool
  businessId : Option Nat
  environment : Option String
  error : Option String
  deriving Repr, DecidableEq

/-- `src/lib/api-key-auth.ts` `authenticateApiKey`: resolve the `x-api-key`
header against stored keys.  On a matching active key the handler `await`s
a Prisma update stamping `lastUsedAt` before returning success; that update
sits inside the same `try`/`catch` as the lookup, so `updateThrows` models
the update promise rejecting, which the `catch` turns into a generic
`Authentication failed` result. -/
def authenticateApiKey (db : DB) (apiKeyHeader : Option String) (now : Nat)
    (updateThrows : Bool) : ApiKeyAuthResult × DB :=
  match apiKeyHeader with
  | none =>
    ({ success := false, businessId := none, environment := none,
       error := some "Missing x-api-key header" }, db)
  | some apiKey =>
    match db.apiKeys.find? (fun k => k.key == apiKey) with
    | none =>
      ({ success := false, businessId := none, environment := none,
         error := some "Invalid API key" }, db)
    | some key =>
      if !key.isActive then
        ({ success := false, businessId := none, environment := none,
           error := some "API key is inactive" }, db)
      else if updateThrows then
        ({ success := false, businessId := none, environment := none,
           error := some "Authentication failed" }, db)
      else
        ({ success := true, businessId := some key.businessId,
           environment := some key.environment, error := none },
         { db with apiKeys := db.apiKeys.map (fun k =>
             if k.id == key.id then { k with lastUsedAt := some now } else k) })

/-- `src/lib/webhooks.ts`: does a registration's subscribed-events list
cover this event (`events.includes(event) || events.includes('*')`)? -/
def matchesEvent (w : Webhook) (event : String) : Bool :=
  w.events.contains event || w.events.contains "*"

/-- Modelled from the spec: the Prisma schema file is not among the source
files; per the spec's data model a `WebhookDelivery` starts with
`attempts: 0` ("terminal after 5 attempts", counted from zero), supplied
by a schema default since `enqueueWebhook` does not set `attempts`. -/
def initialDeliveryAttempts : Nat := 0

/-- One iteration of the `enqueueWebhook` loop body: for a matching active
registration, create a pending delivery record. -/
def enqueueStep (event : String) (data : EventData) (businessId now : Nat)
    (acc : DB) (w : Webhook) : DB :=
  if matchesEvent w event then
    { acc with
      deliveries := acc.deliveries ++
        [{ id := acc.nextId, webhookId := w.id, event := event,
           payload := { event := event, data := data,
                        businessId := businessId, timestamp := now },
           status := .pending, attempts := initialDeliveryAttempts,
           lastAttemptAt := none }],
      nextId := acc.nextId + 1 }
  else acc

/-- `src/lib/webhooks.ts` `enqueueWebhook`: find the business's active
registrations, and for each one subscribed to the event (or to the
wildcard) create a `pending` delivery record. -/
def enqueueWebhook (db : DB) (businessId : Nat) (event : String)
    (data : EventData) (now : Nat) : DB :=
  let webhooks := db.webhooks.filter
    (fun w => w.businessId == businessId && w.isActive)
  webhooks.foldl (enqueueStep event data businessId now) db

/-- The worker's retry ceiling (`attempts < 5` in both queries). -/
def maxAttempts : Nat := 5

/-- Outcome of the outbound `fetch` for one delivery: a 2xx response, a
non-2xx response, or a thrown network error. -/
inductive HttpOutcome where
  | ok2xx
  | non2xx
  | netError
  deriving Repr, DecidableEq

/-- `src/lib/webhooks.ts` `deliverWebhook`: POST the payload; on 2xx mark
`success`, otherwise (non-2xx, or an error thrown during delivery) mark
`failed` once `attempts + 1 >= 5` and `pending` below that; either way
increment `attempts` and stamp `lastAttemptAt`. -/
def deliverWebhook (d : WebhookDelivery) (outcome : HttpOutcome) (now : Nat) :
    WebhookDelivery :=
  match outcome with
  | .ok2xx =>
    { d with
      status := DeliveryStatus.success
      attempts := d.attempts + 1
      lastAttemptAt := some now }
  | _ =>
    { d with
      status := if maxAttempts ≤ d.attempts + 1 then DeliveryStatus.failed
        else DeliveryStatus.pending
      attempts := d.attempts + 1
      lastAttemptAt := some now }

/-- The worker's selection predicate: `status = 'pending' AND attempts < 5`. -/
def pendingEligible (d : WebhookDelivery) : Bool :=
  d.status == .pending && d.attempts < maxAttempts

/-- `src/lib/webhooks.ts` `processWebhookDeliveries`: select up to 50
deliveries that are `pending` with `attempts < 5` and run `deliverWebhook`
on each, the HTTP outcome given by the oracle `outcome`, keyed by delivery
id (ids are unique in the store). -/
def processWebhookDeliveries (db : DB) (outcome : Nat → HttpOutcome)
    (now : Nat) : DB :=
  let batch := (db.deliveries.filter pendingEligible).take 50
  { db with deliveries := db.deliveries.map (fun d =>
      if batch.any (fun b => b.id == d.id) then deliverWebhook d (outcome d.id) now
      else d) }

/-- JavaScript truthiness of an optional numeric body field (`!amount`):
absent or zero is falsy. -/
def truthyRat (x : Option ℚ) : Bool :=
  match x with
  | none => false
  | some a => !(a == 0)

/-- JavaScript truthiness of an optional string body field: absent or
empty is falsy. -/
def truthyStr (x : Option String) : Bool :=
  match x with
  | none => false
  | some s => !(s == "")

/-- Customer resolution shared by the integration handlers: `findFirst` by
`(id, businessId)` when `customerId` is given, else by `(email, businessId)`.
(Row ids are positive, so JavaScript truthiness of `customerId` coincides
with its presence.) -/
def findCustomer (db : DB) (customerId : Option Nat)
    (customerEmail : Option String) (businessId : Nat) : Option Customer :=
  match customerId with
  | some cid =>
    db.customers.find? (fun c => c.id == cid && c.businessId == businessId)
  | none =>
    match customerEmail with
    | some email =>
      db.customers.find? (fun c => c.email == email && c.businessId == businessId)
    | none => none

/-- Request body of the integration transaction-create endpoint. -/
structure TxnCreateBody where
  customerId : Option Nat
  customerEmail : Option String
  amount : Option ℚ
  date : Option Nat
  deriving Repr, DecidableEq

/-- `POST /api/integrations/transactions`: authenticate the API key, check
idempotency, validate, resolve the customer, then in one atomic unit insert
the transaction row and increment the customer's points by
`calculatePoints amount`; afterwards enqueue the `transaction_created` and
`points_awarded` webhooks and cache the response under the idempotency key
if one was sent. -/
def transactionsPOST (db : DB) (apiKeyHeader idemKey : Option String)
    (body : TxnCreateBody) (now : Nat) (authUpdateThrows : Bool) : Resp × DB :=
  let auth := authenticateApiKey db apiKeyHeader now authUpdateThrows
  if !auth.1.success then
    ({ status := 401, body := .errMsg (auth.1.error.getD "") }, auth.2)
  else
    let bid := auth.1.businessId.getD 0
    let db1 := auth.2
    match checkIdempotency db1 idemKey bid now with
    | some cached => (cached, db1)
    | none =>
      if !truthyRat body.amount
          || (body.customerId == none && !truthyStr body.customerEmail) then
        ({ status := 400,
           body := .errMsg
             "Missing required fields: amount and (customerId or customerEmail)" },
         db1)
      else
        let amount := body.amount.getD 0
        if amount ≤ 0 then
          ({ status := 400, body := .errMsg "Amount must be greater than 0" }, db1)
        else
          match findCustomer db1 body.customerId body.customerEmail bid with
          | none => ({ status := 404, body := .errMsg "Customer not found" }, db1)
          | some customer =>
            let pointsAwarded := calculatePoints amount
            let txn : Transaction :=
              { id := db1.nextId, businessId := bid, customerId := customer.id,
                amount := amount, date := body.date.getD now }
            let newBalance := customer.points + pointsAwarded
            let db2 : DB :=
              { db1 with
                transactions := db1.transactions ++ [txn]
                customers := db1.customers.map (fun c =>
                  if c.id == customer.id then
                    { c with points := c.points + pointsAwarded }
                  else c)
                nextId := db1.nextId + 1 }
            let resp : Resp :=
              { status := 201,
                body := .txnCreated txn.id customer.id amount pointsAwarded
                  newBalance txn.date }
            let db3 := enqueueWebhook db2 bid "transaction_created"
              (.txn txn.id customer.id amount pointsAwarded) now
            let db4 := enqueueWebhook db3 bid "points_awarded"
              (.pts customer.id pointsAwarded newBalance "transaction") now
            let db5 := match idemKey with
              | some k => storeIdempotentResponse db4 k bid resp now
              | none => db4
            (resp, db5)

/-- Request body of the integration redemption-create endpoint. -/
structure RedCreateBody where
  customerId : Option Nat
  customerEmail : Option String
  rewardId : Option Nat
  deriving Repr, DecidableEq

/-- `POST /api/integrations/redemptions`: authenticate, check idempotency,
validate, resolve customer and reward, reject with the structured
insufficient-points error when `customer.points < reward.pointsRequired`,
otherwise atomically insert the redemption row and decrement the points;
afterwards enqueue `redemption_completed` and cache the response. -/
def redemptionsPOST (db : DB) (apiKeyHeader idemKey : Option String)
    (body : RedCreateBody) (now : Nat) (authUpdateThrows : Bool) : Resp × DB :=
  let auth := authenticateApiKey db apiKeyHeader now authUpdateThrows
  if !auth.1.success then
    ({ status := 401, body := .errMsg (auth.1.error.getD "") }, auth.2)
  else
    let bid := auth.1.businessId.getD 0
    let db1 := auth.2
    match checkIdempotency db1 idemKey bid now with
    | some cached => (cached, db1)
    | none =>
      if body.rewardId == none
          || (body.customerId == none && !truthyStr body.customerEmail) then
        ({ status := 400,
           body := .errMsg
             "Missing required fields: rewardId and (customerId or customerEmail)" },
         db1)
      else
        match findCustomer db1 body.customerId body.customerEmail bid with
        | none => ({ status := 404, body := .errMsg "Customer not found" }, db1)
        | some customer =>
          let rid := body.rewardId.getD 0
          match db1.rewards.find?
              (fun r => r.id == rid && r.businessId == bid) with
          | none => ({ status := 404, body := .errMsg "Reward not found" }, db1)
          | some reward =>
            if customer.points < reward.pointsRequired then
              ({ status := 400,
                 body := .insufficientPoints reward.pointsRequired
                   customer.points (reward.pointsRequired - customer.points) },
               db1)
            else
              let red : Redemption :=
                { id := db1.nextId, customerId := customer.id,
                  rewardId := reward.id, date := now }
              let newBalance := customer.points - reward.pointsRequired
              let db2 : DB :=
                { db1 with
                  redemptions := db1.redemptions ++ [red]
                  customers := db1.customers.map (fun c =>
                    if c.id == customer.id then
                      { c with points := c.points - reward.pointsRequired }
                    else c)
                  nextId := db1.nextId + 1 }
              let resp : Resp :=
                { status := 201,
                  body := .redemptionCreated red.id customer.id reward.id
                    reward.pointsRequired newBalance red.date }
              let db3 := enqueueWebhook db2 bid "redemption_completed"
                (.red red.id customer.id reward.id reward.pointsRequired
                  newBalance) now
              let db4 := match idemKey with
                | some k => storeIdempotentResponse db3 k bid resp now
                | none => db3
              (resp, db4)

/-- Modelled from the spec: the Prisma schema file is not among the source
files; the upsert's create branch sets no `points`, and per the spec
("If absent: create with `points = 0`") the schema default is 0. -/
def initialCustomerPoints : Int := 0

/-- The `prisma.customer.upsert` call of `POST /api/integrations/customers`
(lines 100-112): the `where` clause is `{email}` alone — the email is the
globally unique natural key.  If a row exists, update `name` (and `phone`
when given) leaving `points` untouched; otherwise create the row with
`points` at its schema default.  Returns the resulting row. -/
def upsertCustomer (db : DB) (email name : String) (phone : Option String)
    (businessId : Nat) : Customer × DB :=
  match db.customers.find? (fun c => c.email == email) with
  | some existing =>
    let updated : Customer :=
      { existing with
        name := name
        phone := match phone with | some p => some p | none => existing.phone }
    (updated,
     { db with customers := db.customers.map (fun c =>
         if c.email == email then updated else c) })
  | none =>
    let created : Customer :=
      { id := db.nextId, businessId := businessId, email := email,
        name := name, phone := phone, points := initialCustomerPoints }
    (created,
     { db with
        customers := db.customers ++ [created]
        nextId := db.nextId + 1 })

/-- The row the upsert's update branch writes: `name` replaced, `phone`
replaced when given, everything else (in particular `points`) kept. -/
def upsertRow (c0 : Customer) (n : String) (p : Option String) : Customer :=
  { c0 with
    name := n
    phone := match p with | some q => some q | none => c0.phone }

/-- The row the upsert's create branch writes: a fresh id, `points` at the
schema default. -/
def createRow (db : DB) (email n : String) (p : Option String) (bid : Nat) :
    Customer :=
  { id := db.nextId, businessId := bid, email := email, name := n,
    phone := p, points := initialCustomerPoints }

/-- Request body of the integration customer-upsert endpoint. -/
structure CustUpsertBody where
  email : Option String
  name : Option String
  phone : Option String
  deriving Repr, DecidableEq

/-- `POST /api/integrations/customers`: authenticate, check idempotency,
validate `email` and `name`, upsert the customer by email, then enqueue a
`customer_created` webhook (the source calls `enqueueWebhook`
unconditionally, on both upsert branches) and cache the response (status
200) under the idempotency key if one was sent. -/
def customersPOST (db : DB) (apiKeyHeader idemKey : Option String)
    (body : CustUpsertBody) (now : Nat) (authUpdateThrows : Bool) : Resp × DB :=
  let auth := authenticateApiKey db apiKeyHeader now authUpdateThrows
  if !auth.1.success then
    ({ status := 401, body := .errMsg (auth.1.error.getD "") }, auth.2)
  else
    let bid := auth.1.businessId.getD 0
    let db1 := auth.2
    match checkIdempotency db1 idemKey bid now with
    | some cached => (cached, db1)
    | none =>
      if !truthyStr body.email || !truthyStr body.name then
        ({ status := 400, body := .errMsg "Missing required fields: email, name" },
         db1)
      else
        let up := upsertCustomer db1 (body.email.getD "") (body.name.getD "")
          body.phone bid
        let customer := up.1
        let db2 := up.2
        let resp : Resp :=
          { status := 200,
            body := .customerUpserted customer.id customer.name customer.email
              customer.phone customer.points }
        let db3 := enqueueWebhook db2 bid "customer_created" (.cust customer) now
        let db4 := match idemKey with
          | some k => storeIdempotentResponse db3 k bid resp now
          | none => db3
        (resp, db4)

/-- Request body of the dashboard transaction update endpoint. -/
structure TxnUpdateBody where
  amount : Option ℚ
  customerId : Option Nat
  businessId : Option Nat
  date : Option Nat
  deriving Repr, DecidableEq

/-- `PUT /api/transactions?id=` in the dashboard transactions route: no
authentication is performed; find the transaction by id alone
(`findUnique`, unscoped), and if `amount` is present (truthy) and differs
from the stored amount, update the row and adjust the owning customer's
points by `calculatePoints newAmount - calculatePoints oldAmount`;
otherwise update only the optional fields. -/
def transactionsPUT (db : DB) (idParam : Option Nat) (body : TxnUpdateBody) :
    Resp × DB :=
  match idParam with
  | none => ({ status := 400, body := .errMsg "Transaction ID is required" }, db)
  | some id =>
    match db.transactions.find? (fun t => t.id == id) with
    | none => ({ status := 404, body := .errMsg "Transaction not found" }, db)
    | some existing =>
      if truthyRat body.amount && !(body.amount.getD 0 == existing.amount) then
        let amount := body.amount.getD 0
        let oldPoints := calculatePoints existing.amount
        let newPoints := calculatePoints amount
        let pointsDifference := newPoints - oldPoints
        ({ status := 200, body := .txnUpdated id (some pointsDifference) },
         { db with
            transactions := db.transactions.map (fun t =>
              if t.id == id then
                { t with
                  amount := amount
                  date := body.date.getD t.date
                  customerId := body.customerId.getD t.customerId
                  businessId := body.businessId.getD t.businessId }
              else t)
            customers := db.customers.map (fun c =>
              if c.id == existing.customerId then
                { c with points := c.points + pointsDifference }
              else c) })
      else
        ({ status := 200, body := .txnUpdated id none },
         { db with transactions := db.transactions.map (fun t =>
             if t.id == id then
               { t with
                 date := body.date.getD t.date
                 customerId := body.customerId.getD t.customerId
                 businessId := body.businessId.getD t.businessId }
             else t) })

/-- `DELETE /api/transactions?id=` in the dashboard transactions route: no
authentication is performed; find the transaction by id alone, delete it,
and decrement the owning customer's points by
`calculatePoints existing.amount`. -/
def transactionsDELETE (db : DB) (idParam : Option Nat) : Resp × DB :=
  match idParam with
  | none => ({ status := 400, body := .errMsg "Transaction ID is required" }, db)
  | some id =>
    match db.transactions.find? (fun t => t.id == id) with
    | none => ({ status := 404, body := .errMsg "Transaction not found" }, db)
    | some existing =>
      let pointsToRemove := calculatePoints existing.amount
      ({ status := 200, body := .txnDeleted pointsToRemove },
       { db with
          transactions := db.transactions.filter (fun t => !(t.id == id))
          customers := db.customers.map (fun c =>
            if c.id == existing.customerId then
              { c with points := c.points - pointsToRemove }
            else c) })

/-! ### Concrete fixtures

A small concrete tenant used to instantiate the theorems: one API key, one
customer, one reward, two webhook registrations subscribed to
`transaction_created`. -/

/-- Fixture: an active production API key of business 1. -/
def wApiKey : ApiKey :=
  { id := 1, businessId := 1, key := "lx_demo", isActive := true,
    environment := "production", lastUsedAt := none }

/-- Fixture: a customer of business 1 with 40 points. -/
def wCustomer : Customer :=
  { id := 2, businessId := 1, email := "ada@example.com", name := "Ada",
    phone := none, points := 40 }

/-- Fixture: a reward of business 1 requiring 100 points. -/
def wReward : Reward :=
  { id := 3, businessId := 1, title := "Free Coffee", pointsRequired := 100 }

/-- Fixture: first webhook registration, subscribed to `transaction_created`. -/
def wHook1 : Webhook :=
  { id := 4, businessId := 1, url := "https://pos.example/hook1",
    events := ["transaction_created"], isActive := true, secret := "s1" }

/-- Fixture: second webhook registration, also subscribed to
`transaction_created`. -/
def wHook2 : Webhook :=
  { id := 5, businessId := 1, url := "https://pos.example/hook2",
    events := ["transaction_created"], isActive := true, secret := "s2" }

/-- Fixture: the base database state. -/
def wDB : DB :=
  { customers := [wCustomer], transactions := [], rewards := [wReward],
    redemptions := [], apiKeys := [wApiKey], webhooks := [wHook1, wHook2],
    deliveries := [], idempotencyKeys := [], nextId := 10 }

/-- Fixture: a transaction-create request body for customer 2, Rs. 5000. -/
def wTxnBody : TxnCreateBody :=
  { customerId := some 2, customerEmail := none, amount := some 5000,
    date := none }

/-- Fixture: a redemption-create request body for customer 2, reward 3. -/
def wRedBody : RedCreateBody :=
  { customerId := some 2, customerEmail := none, rewardId := some 3 }

/-- Fixture: a pending delivery on its fifth (last allowed) attempt. -/
def wDelivery : WebhookDelivery :=
  { id := 6, webhookId := 4, event := "transaction_created",
    payload := { event := "transaction_created",
                 data := .pts 2 50 90 "transaction", businessId := 1,
                 timestamp := 0 },
    status := .pending, attempts := 4, lastAttemptAt := none }

/-- Fixture: the base database with one pending delivery queued. -/
def wDB5 : DB := { wDB with deliveries := [wDelivery] }

/-- Fixture: a customer-upsert request body re-using Ada's email with a
new name. -/
def wCustBody : CustUpsertBody :=
  { email := some "ada@example.com", name := some "Ada Lovelace",
    phone := none }

/-- Fixture: an existing transaction row of customer 2, Rs. 2500. -/
def wTxn : Transaction :=
  { id := 9, businessId := 1, customerId := 2, amount := 2500, date := 0 }

/-- Fixture: the base database with the existing transaction row. -/
def wDB10 : DB := { wDB with transactions := [wTxn] }

/-- Fixture: a transaction-update body changing the amount to Rs. 7500. -/
def wPutBody : TxnUpdateBody :=
  { amount := some 7500, customerId := none, businessId := none, date := none }

/-- Fixture: an outbound HTTP oracle whose endpoint always answers 500. -/
def wOutcome : Nat → HttpOutcome := fun _ => .non2xx

/-- Fixture: a webhook registration subscribed to `customer_created`. -/
def wHookCust : Webhook :=
  { id := 7, businessId := 1, url := "https://pos.example/hook3",
    events := ["customer_created"], isActive := true, secret := "s3" }

/-- Fixture: the base database with the `customer_created` webhook instead
of the transaction ones. -/
def wDB6 : DB := { wDB with webhooks := [wHookCust] }

/-! ### Generic list lemmas -/

/-- A `find?` over a keyed duplicate-free list locates each member by its
key. -/
theorem find?_key_of_mem_nodup {α β : Type} [DecidableEq β] (key : α → β) :
    ∀ (l : List α), (l.map key).Nodup → ∀ a ∈ l,
      l.find? (fun x => key x == key a) = some a := by
  intro l
  induction l with
  | nil => simp
  | cons b t ih =>
    intro hnd a ha
    rw [List.map_cons, List.nodup_cons] at hnd
    rcases List.mem_cons.mp ha with rfl | hat
    · exact List.find?_cons_of_pos _ (by simp)
    · have hne : ¬ key b = key a := by
        intro h
        exact hnd.1 (h ▸ List.mem_map_of_mem key hat)
      rw [List.find?_cons_of_neg _ (by simpa using hne)]
      exact ih hnd.2 a hat

/-- `find?` commutes with a map that does not move the predicate. -/
theorem find?_map_of_pred {α : Type} (l : List α) (g : α → α) (pe : α → Bool)
    (h : ∀ x, pe (g x) = pe x) :
    (l.map g).find? pe = (l.find? pe).map g := by
  rw [List.find?_map]
  have hc : pe ∘ g = pe := funext h
  rw [hc]

/-- Updating every row matched by `pe` to the fixed row `u` (itself matched
by `pe`) turns the matched sublist into copies of `u`. -/
theorem filter_map_update {α : Type} (l : List α) (g : α → α) (pe : α → Bool)
    (u : α) (hg : ∀ x, pe x = true → g x = u) (hfix : ∀ x, pe x = false → g x = x)
    (hu : pe u = true) :
    (l.map g).filter pe = List.replicate (l.filter pe).length u := by
  induction l with
  | nil => simp
  | cons b t ih =>
    rw [List.map_cons]
    by_cases hb : pe b = true
    · rw [hg b hb, List.filter_cons, List.filter_cons, if_pos hu, if_pos hb,
        List.length_cons, List.replicate_succ, ih]
    · have hb' : pe b = false := by simpa using hb
      rw [hfix b hb', List.filter_cons, List.filter_cons, if_neg (by simp [hb']),
        if_neg (by simp [hb']), ih]

/-- After such an update, every matched member is the fixed row `u`. -/
theorem mem_map_update {α : Type} (l : List α) (g : α → α) (pe : α → Bool)
    (u : α) (hg : ∀ x, pe x = true → g x = u) (hfix : ∀ x, pe x = false → g x = x) :
    ∀ c ∈ l.map g, pe c = true → c = u := by
  intro c hc hpc
  obtain ⟨x, hx, rfl⟩ := List.mem_map.mp hc
  by_cases hpx : pe x = true
  · exact hg x hpx
  · have hb' : pe x = false := by simpa using hpx
    rw [hfix x hb'] at hpc
    rw [hb'] at hpc
    cases hpc

/-- In a keyed duplicate-free list, a key that is present matches exactly
one row. -/
theorem length_filter_of_nodup {α β : Type} [DecidableEq β] (key : α → β)
    (v : β) :
    ∀ (l : List α), (l.map key).Nodup →
      (l.find? (fun x => key x == v)).isSome →
      (l.filter (fun x => key x == v)).length = 1 := by
  intro l
  induction l with
  | nil => simp
  | cons b t ih =>
    intro hnd hsome
    rw [List.map_cons, List.nodup_cons] at hnd
    by_cases hb : (key b == v) = true
    · rw [List.filter_cons, if_pos hb, List.length_cons]
      have hnone : t.filter (fun x => key x == v) = [] := by
        rw [List.filter_eq_nil_iff]
        intro x hx hpx
        apply hnd.1
        have hbv : key b = v := by simpa using hb
        have hxv : key x = v := by simpa using hpx
        rw [hbv, ← hxv]
        exact List.mem_map_of_mem key hx
      rw [hnone]
      rfl
    · have hb' : (key b == v) = false := by simpa using hb
      rw [List.filter_cons, if_neg (by simp [hb'])]
      apply ih hnd.2
      rw [List.find?_cons_of_neg _ (by simp [hb'])] at hsome
      exact hsome

/-! ### Component characterization lemmas -/

/-- `checkIdempotency` reads only the idempotency store. -/
theorem checkIdempotency_congr (db db' : DB)
    (h : db'.idempotencyKeys = db.idempotencyKeys) (ik : Option String)
    (bid now : Nat) :
    checkIdempotency db' ik bid now = checkIdempotency db ik bid now := by
  unfold checkIdempotency
  rw [h]

/-- `findCustomer` reads only the customer table. -/
theorem findCustomer_congr (db db' : DB) (h : db'.customers = db.customers)
    (cid : Option Nat) (email : Option String) (bid : Nat) :
    findCustomer db' cid email bid = findCustomer db cid email bid := by
  unfold findCustomer
  rw [h]

/-- Replacing only the API keys (as the authenticator's `lastUsedAt` stamp
does) leaves idempotency lookups unchanged. -/
theorem checkIdempotency_set_apiKeys (db : DB) (ks : List ApiKey)
    (ik : Option String) (bid now : Nat) :
    checkIdempotency { db with apiKeys := ks } ik bid now =
      checkIdempotency db ik bid now := rfl

/-- Replacing only the API keys leaves customer resolution unchanged. -/
theorem findCustomer_set_apiKeys (db : DB) (ks : List ApiKey)
    (cid : Option Nat) (email : Option String) (bid : Nat) :
    findCustomer { db with apiKeys := ks } cid email bid =
      findCustomer db cid email bid := rfl

/-- On a stored active key (and a succeeding `lastUsedAt` write),
`authenticateApiKey` succeeds with the key's business and stamps
`lastUsedAt`. -/
theorem authenticateApiKey_valid (db : DB) (K : String) (now : Nat)
    (rec : ApiKey) (hfind : db.apiKeys.find? (fun x => x.key == K) = some rec)
    (hactive : rec.isActive = true) :
    authenticateApiKey db (some K) now false =
      ({ success := true, businessId := some rec.businessId,
         environment := some rec.environment, error := none },
       { db with apiKeys := db.apiKeys.map (fun x =>
           if x.id == rec.id then { x with lastUsedAt := some now } else x) }) := by
  simp only [authenticateApiKey, hfind, hactive]
  simp

/-- Stamping `lastUsedAt` does not disturb key lookup: the lookup finds the
stamped record. -/
theorem find?_apiKeys_stamped (l : List ApiKey) (K : String) (rec : ApiKey)
    (now : Nat) (hfind : l.find? (fun x => x.key == K) = some rec) :
    (l.map (fun x => if x.id == rec.id then { x with lastUsedAt := some now }
        else x)).find? (fun x => x.key == K)
      = some { rec with lastUsedAt := some now } := by
  rw [find?_map_of_pred]
  · rw [hfind]
    simp
  · intro x
    by_cases h : (x.id == rec.id) = true <;> simp [h]

/-- Full shape of `enqueueWebhook`: it only appends delivery rows (and
advances the id counter), one pending row per active matching
registration, in registration order. -/
theorem enqueueWebhook_shape (db : DB) (bid : Nat) (ev : String)
    (data : EventData) (now : Nat) :
    ∃ (new : List WebhookDelivery) (n' : Nat),
      enqueueWebhook db bid ev data now =
        { db with deliveries := db.deliveries ++ new, nextId := n' } ∧
      new.map (fun d => d.webhookId) =
        ((db.webhooks.filter (fun w => w.businessId == bid && w.isActive)).filter
          (fun w => matchesEvent w ev)).map (fun w => w.id) ∧
      ∀ d ∈ new, d.status = .pending ∧ d.event = ev ∧ d.attempts = 0 ∧
        d.payload = { event := ev, data := data, businessId := bid,
                      timestamp := now } := by
  unfold enqueueWebhook
  generalize (db.webhooks.filter (fun w => w.businessId == bid && w.isActive)) = l
  induction l generalizing db with
  | nil =>
    refine ⟨[], db.nextId, ?_, by simp, by simp⟩
    simp
  | cons w t ih =>
    rw [List.foldl_cons]
    by_cases hm : matchesEvent w ev = true
    · have hstep : enqueueStep ev data bid now db w =
          { db with
            deliveries := db.deliveries ++
              [{ id := db.nextId, webhookId := w.id, event := ev,
                 payload := { event := ev, data := data, businessId := bid,
                              timestamp := now },
                 status := .pending, attempts := initialDeliveryAttempts,
                 lastAttemptAt := none }],
            nextId := db.nextId + 1 } := by
        unfold enqueueStep
        rw [if_pos hm]
      rw [hstep]
      obtain ⟨new', n', heq, hmap, hprops⟩ :=
        ih { db with
              deliveries := db.deliveries ++
                [{ id := db.nextId, webhookId := w.id, event := ev,
                   payload := { event := ev, data := data, businessId := bid,
                                timestamp := now },
                   status := .pending, attempts := initialDeliveryAttempts,
                   lastAttemptAt := none }],
              nextId := db.nextId + 1 }
      refine ⟨{ id := db.nextId, webhookId := w.id, event := ev,
                payload := { event := ev, data := data, businessId := bid,
                             timestamp := now },
                status := .pending, attempts := initialDeliveryAttempts,
                lastAttemptAt := none } :: new', n', ?_, ?_, ?_⟩
      · rw [heq]
        simp
      · rw [List.filter_cons, if_pos hm, List.map_cons, List.map_cons]
        simpa using hmap
      · intro d hd
        rcases List.mem_cons.mp hd with rfl | hd'
        · exact ⟨rfl, rfl, rfl, rfl⟩
        · exact hprops d hd'
    · have hstep : enqueueStep ev data bid now db w = db := by
        unfold enqueueStep
        rw [if_neg hm]
      rw [hstep, List.filter_cons, if_neg hm]
      exact ih db

/-- Dispatching webhooks leaves the customer table unchanged. -/
theorem enqueueWebhook_customers (db : DB) (bid : Nat) (ev : String)
    (data : EventData) (now : Nat) :
    (enqueueWebhook db bid ev data now).customers = db.customers := by
  obtain ⟨new, n', h, -, -⟩ := enqueueWebhook_shape db bid ev data now
  rw [h]

/-- Dispatching webhooks leaves the transaction table unchanged. -/
theorem enqueueWebhook_transactions (db : DB) (bid : Nat) (ev : String)
    (data : EventData) (now : Nat) :
    (enqueueWebhook db bid ev data now).transactions = db.transactions := by
  obtain ⟨new, n', h, -, -⟩ := enqueueWebhook_shape db bid ev data now
  rw [h]

/-- Dispatching webhooks leaves the reward table unchanged. -/
theorem enqueueWebhook_rewards (db : DB) (bid : Nat) (ev : String)
    (data : EventData) (now : Nat) :
    (enqueueWebhook db bid ev data now).rewards = db.rewards := by
  obtain ⟨new, n', h, -, -⟩ := enqueueWebhook_shape db bid ev data now
  rw [h]

/-- Dispatching webhooks leaves the redemption table unchanged. -/
theorem enqueueWebhook_redemptions (db : DB) (bid : Nat) (ev : String)
    (data : EventData) (now : Nat) :
    (enqueueWebhook db bid ev data now).redemptions = db.redemptions := by
  obtain ⟨new, n', h, -, -⟩ := enqueueWebhook_shape db bid ev data now
  rw [h]

/-- Dispatching webhooks leaves the API keys unchanged. -/
theorem enqueueWebhook_apiKeys (db : DB) (bid : Nat) (ev : String)
    (data : EventData) (now : Nat) :
    (enqueueWebhook db bid ev data now).apiKeys = db.apiKeys := by
  obtain ⟨new, n', h, -, -⟩ := enqueueWebhook_shape db bid ev data now
  rw [h]

/-- Dispatching webhooks leaves the webhook registrations unchanged. -/
theorem enqueueWebhook_webhooks (db : DB) (bid : Nat) (ev : String)
    (data : EventData) (now : Nat) :
    (enqueueWebhook db bid ev data now).webhooks = db.webhooks := by
  obtain ⟨new, n', h, -, -⟩ := enqueueWebhook_shape db bid ev data now
  rw [h]

/-- Dispatching webhooks leaves the idempotency store unchanged. -/
theorem enqueueWebhook_idempotencyKeys (db : DB) (bid : Nat) (ev : String)
    (data : EventData) (now : Nat) :
    (enqueueWebhook db bid ev data now).idempotencyKeys = db.idempotencyKeys := by
  obtain ⟨new, n', h, -, -⟩ := enqueueWebhook_shape db bid ev data now
  rw [h]

/-- In a customer table with duplicate-free ids, each member is found by
its id. -/
theorem find?_customer_id_of_mem (l : List Customer)
    (hnd : (l.map (fun c => c.id)).Nodup) (c : Customer) (hc : c ∈ l) :
    l.find? (fun x => x.id == c.id) = some c :=
  find?_key_of_mem_nodup (fun c => c.id) l hnd c hc

/-- In a customer table with duplicate-free emails, each member is found by
its email. -/
theorem find?_customer_email_of_mem (l : List Customer)
    (hnd : (l.map (fun c => c.email)).Nodup) (c : Customer) (hc : c ∈ l) :
    l.find? (fun x => x.email == c.email) = some c :=
  find?_key_of_mem_nodup (fun c => c.email) l hnd c hc

/-- The customer a successful integration transaction-create resolved is a
member of the customer table. -/
theorem findCustomer_mem (db : DB) (cid : Option Nat) (email : Option String)
    (bid : Nat) (cust : Customer)
    (h : findCustomer db cid email bid = some cust) : cust ∈ db.customers := by
  unfold findCustomer at h
  cases cid with
  | some i => exact List.mem_of_find?_eq_some h
  | none =>
    cases email with
    | some e => exact List.mem_of_find?_eq_some h
    | none => cases h

/-- Field-by-field characterization of the success path of the integration
transaction-create handler: on valid auth, a fresh idempotency key, a
positive amount and a resolved customer, the response is 201 with the new
transaction's id and the incremented balance, exactly one transaction row
is appended, the resolved customer's row is incremented by
`calculatePoints amount`, `lastUsedAt` is stamped, and the response is
cached iff an idempotency key was supplied. -/
theorem transactionsPOST_success_parts (db : DB) (K : String)
    (idemKey : Option String) (body : TxnCreateBody) (now : Nat)
    (rec : ApiKey) (cust : Customer) (a : ℚ)
    (hkey : db.apiKeys.find? (fun x => x.key == K) = some rec)
    (hactive : rec.isActive = true)
    (hidem : checkIdempotency db idemKey rec.businessId now = none)
    (hamount : body.amount = some a)
    (hpos : 0 < a)
    (href : body.customerId ≠ none ∨ truthyStr body.customerEmail = true)
    (hfind : findCustomer db body.customerId body.customerEmail rec.businessId
      = some cust) :
    (transactionsPOST db (some K) idemKey body now false).1 =
      { status := 201,
        body := .txnCreated db.nextId cust.id a (calculatePoints a)
          (cust.points + calculatePoints a) (body.date.getD now) } ∧
    (transactionsPOST db (some K) idemKey body now false).2.transactions =
      db.transactions ++
        [{ id := db.nextId, businessId := rec.businessId,
           customerId := cust.id, amount := a, date := body.date.getD now }] ∧
    (transactionsPOST db (some K) idemKey body now false).2.customers =
      db.customers.map (fun c =>
        if c.id == cust.id then { c with points := c.points + calculatePoints a }
        else c) ∧
    (transactionsPOST db (some K) idemKey body now false).2.apiKeys =
      db.apiKeys.map (fun x =>
        if x.id == rec.id then { x with lastUsedAt := some now } else x) ∧
    (transactionsPOST db (some K) idemKey body now false).2.idempotencyKeys =
      (match idemKey with
       | some k => db.idempotencyKeys ++
           [{ key := k, businessId := rec.businessId,
              response :=
                { status := 201,
                  body := .txnCreated db.nextId cust.id a (calculatePoints a)
                    (cust.points + calculatePoints a) (body.date.getD now) },
              expiresAt := now + idempotencyTTL }]
       | none => db.idempotencyKeys) ∧
    (transactionsPOST db (some K) idemKey body now false).2.redemptions =
      db.redemptions ∧
    (transactionsPOST db (some K) idemKey body now false).2.rewards =
      db.rewards := by
  have hauth := authenticateApiKey_valid db K now rec hkey hactive
  have hne : (a == 0) = false := beq_eq_false_iff_ne.mpr (ne_of_gt hpos)
  have hval : truthyRat (some a) = true := by
    simp [truthyRat, hne]
  have hcond : (!truthyRat (some a)
      || (body.customerId == none && !truthyStr body.customerEmail)) = false := by
    rcases href with h | h
    · cases hcid : body.customerId with
      | none => exact absurd hcid h
      | some i => simp [hval, hcid]
    · simp [hval, h]
  have hle : ¬ (a ≤ 0) := not_le.mpr hpos
  simp only [transactionsPOST, hauth]
  simp only [Bool.not_true, Bool.false_eq_true, if_false, Option.getD_some,
    checkIdempotency_set_apiKeys, hidem, hcond, hamount,
    findCustomer_set_apiKeys, hfind]
  simp only [if_neg hle]
  refine ⟨?_, ?_, ?_, ?_, ?_, ?_, ?_⟩ <;>
    cases idemKey <;>
      simp [storeIdempotentResponse, enqueueWebhook_customers,
        enqueueWebhook_transactions, enqueueWebhook_rewards,
        enqueueWebhook_redemptions, enqueueWebhook_apiKeys,
        enqueueWebhook_webhooks, enqueueWebhook_idempotencyKeys]

/-- C1: Idempotent retry: calling the integration transaction-create
handler twice in sequence with the same valid payload and the same
idempotency key yields the identical response both times (in particular
the identical `transactionId`), while the customer's balance is
incremented only once and only one transaction row is appended — the
second call is short-circuited by the cached idempotency record. -/
theorem idempotent_retry_transaction_create (db : DB) (K k : String)
    (body : TxnCreateBody) (now : Nat) (rec : ApiKey) (cust : Customer) (a : ℚ)
    (hkey : db.apiKeys.find? (fun x => x.key == K) = some rec)
    (hactive : rec.isActive = true)
    (hidem : checkIdempotency db (some k) rec.businessId now = none)
    (hamount : body.amount = some a)
    (hpos : 0 < a)
    (href : body.customerId ≠ none ∨ truthyStr body.customerEmail = true)
    (hfind : findCustomer db body.customerId body.customerEmail rec.businessId
      = some cust)
    (hnodup : (db.customers.map (fun c => c.id)).Nodup) :
    (transactionsPOST (transactionsPOST db (some K) (some k) body now false).2
        (some K) (some k) body now false).1 =
      (transactionsPOST db (some K) (some k) body now false).1 ∧
    (transactionsPOST db (some K) (some k) body now false).1 =
      { status := 201,
        body := .txnCreated db.nextId cust.id a (calculatePoints a)
          (cust.points + calculatePoints a) (body.date.getD now) } ∧
    (transactionsPOST (transactionsPOST db (some K) (some k) body now false).2
        (some K) (some k) body now false).2.transactions =
      db.transactions ++
        [{ id := db.nextId, businessId := rec.businessId,
           customerId := cust.id, amount := a, date := body.date.getD now }] ∧
    (transactionsPOST (transactionsPOST db (some K) (some k) body now false).2
        (some K) (some k) body now false).2.customers.find?
        (fun x => x.id == cust.id) =
      some { cust with points := cust.points + calculatePoints a } := by
  obtain ⟨h1, h3, h4, h5, h6, h7, h8⟩ := transactionsPOST_success_parts db K
    (some k) body now rec cust a hkey hactive hidem hamount hpos href hfind
  dsimp only at h6
  have hkey2 : (transactionsPOST db (some K) (some k) body now
      false).2.apiKeys.find? (fun x => x.key == K)
      = some { rec with lastUsedAt := some now } := by
    rw [h5]
    exact find?_apiKeys_stamped db.apiKeys K rec now hkey
  have hauth2 := authenticateApiKey_valid
    (transactionsPOST db (some K) (some k) body now false).2 K now
    { rec with lastUsedAt := some now } hkey2 hactive
  have hid0 : db.idempotencyKeys.find?
      (fun r => r.key == k && r.businessId == rec.businessId
        && decide (now < r.expiresAt)) = none := by
    cases hfd : db.idempotencyKeys.find?
        (fun r => r.key == k && r.businessId == rec.businessId
          && decide (now < r.expiresAt)) with
    | none => rfl
    | some r =>
      exfalso
      simp only [checkIdempotency, hfd] at hidem
      cases hidem
  have hlt : now < now + idempotencyTTL := by
    have : 0 < idempotencyTTL := by norm_num [idempotencyTTL]
    omega
  have hchk2 : checkIdempotency
      (transactionsPOST db (some K) (some k) body now false).2 (some k)
      rec.businessId now =
      some { status := 201,
             body := .txnCreated db.nextId cust.id a (calculatePoints a)
               (cust.points + calculatePoints a) (body.date.getD now) } := by
    simp only [checkIdempotency, h6, List.find?_append, hid0, Option.none_or]
    rw [List.find?_cons_of_pos _ (by simp [hlt])]
  set D := (transactionsPOST db (some K) (some k) body now false).2 with hD
  refine ⟨?_, h1, ?_, ?_⟩
  · rw [h1]
    simp only [transactionsPOST, hauth2, Bool.not_true, Bool.false_eq_true,
      if_false, Option.getD_some, checkIdempotency_set_apiKeys, hchk2]
  · simp only [transactionsPOST, hauth2, Bool.not_true, Bool.false_eq_true,
      if_false, Option.getD_some, checkIdempotency_set_apiKeys, hchk2]
    exact h3
  · simp only [transactionsPOST, hauth2, Bool.not_true, Bool.false_eq_true,
      if_false, Option.getD_some, checkIdempotency_set_apiKeys, hchk2]
    rw [h4]
    rw [find?_map_of_pred _ _ _ (by
      intro x
      by_cases hx : (x.id == cust.id) = true <;> simp [hx])]
    rw [find?_customer_id_of_mem db.customers hnodup cust
      (findCustomer_mem db body.customerId body.customerEmail rec.businessId
        cust hfind)]
    simp

/-- Witness for C1 at the concrete fixture: business 1, customer 2 with 40
points, amount 5000, idempotency key "key-1". -/
theorem idempotent_retry_transaction_create_witness :
    (transactionsPOST (transactionsPOST wDB (some "lx_demo") (some "key-1")
        wTxnBody 0 false).2 (some "lx_demo") (some "key-1") wTxnBody 0
        false).1 =
      (transactionsPOST wDB (some "lx_demo") (some "key-1") wTxnBody 0
        false).1 ∧
    (transactionsPOST wDB (some "lx_demo") (some "key-1") wTxnBody 0
        false).1 =
      { status := 201,
        body := .txnCreated wDB.nextId wCustomer.id 5000 (calculatePoints 5000)
          (wCustomer.points + calculatePoints 5000) (wTxnBody.date.getD 0) } ∧
    (transactionsPOST (transactionsPOST wDB (some "lx_demo") (some "key-1")
        wTxnBody 0 false).2 (some "lx_demo") (some "key-1") wTxnBody 0
        false).2.transactions =
      wDB.transactions ++
        [{ id := wDB.nextId, businessId := wApiKey.businessId,
           customerId := wCustomer.id, amount := 5000,
           date := wTxnBody.date.getD 0 }] ∧
    (transactionsPOST (transactionsPOST wDB (some "lx_demo") (some "key-1")
        wTxnBody 0 false).2 (some "lx_demo") (some "key-1") wTxnBody 0
        false).2.customers.find? (fun x => x.id == wCustomer.id) =
      some { wCustomer with points := wCustomer.points + calculatePoints 5000 } :=
  idempotent_retry_transaction_create wDB "lx_demo" "key-1" wTxnBody 0 wApiKey
    wCustomer 5000 (by rfl) (by rfl) (by rfl) (by rfl) (by norm_num)
    (Or.inl (by simp [wTxnBody])) (by rfl) (by decide)

/-- C3: Balance conservation: creating a transaction with amount `a`
through the integration handler and then deleting that same row through
the dashboard delete handler returns the customer table — and hence the
customer's balance — exactly to its pre-create state, because both the
create-time increment and the delete-time decrement are
`calculatePoints` of the same stored amount. -/
theorem balance_conservation (db : DB) (K : String) (body : TxnCreateBody)
    (now : Nat) (rec : ApiKey) (cust : Customer) (a : ℚ)
    (hkey : db.apiKeys.find? (fun x => x.key == K) = some rec)
    (hactive : rec.isActive = true)
    (hamount : body.amount = some a)
    (hpos : 0 < a)
    (href : body.customerId ≠ none ∨ truthyStr body.customerEmail = true)
    (hfind : findCustomer db body.customerId body.customerEmail rec.businessId
      = some cust)
    (hfresh : ∀ t ∈ db.transactions, t.id ≠ db.nextId) :
    (transactionsDELETE (transactionsPOST db (some K) none body now false).2
        (some db.nextId)).1 =
      { status := 200, body := .txnDeleted (calculatePoints a) } ∧
    (transactionsDELETE (transactionsPOST db (some K) none body now false).2
        (some db.nextId)).2.customers = db.customers ∧
    (transactionsDELETE (transactionsPOST db (some K) none body now false).2
        (some db.nextId)).2.transactions = db.transactions := by
  obtain ⟨h1, h3, h4, h5, h6, h7, h8⟩ := transactionsPOST_success_parts db K
    none body now rec cust a hkey hactive rfl hamount hpos href hfind
  have hleft : db.transactions.find? (fun t => t.id == db.nextId) = none := by
    rw [List.find?_eq_none]
    intro t ht
    simpa using hfresh t ht
  have hfound : (transactionsPOST db (some K) none body now
      false).2.transactions.find? (fun t => t.id == db.nextId) =
      some { id := db.nextId, businessId := rec.businessId,
             customerId := cust.id, amount := a,
             date := body.date.getD now } := by
    rw [h3, List.find?_append, hleft, Option.none_or]
    rw [List.find?_cons_of_pos _ (by simp)]
  simp only [transactionsDELETE, hfound]
  refine ⟨by trivial, ?_, ?_⟩
  · rw [h4, List.map_map]
    have hcomp : ∀ c : Customer,
        ((fun c : Customer =>
            if c.id == cust.id then
              { c with points := c.points - calculatePoints a }
            else c) ∘
          (fun c : Customer =>
            if c.id == cust.id then
              { c with points := c.points + calculatePoints a }
            else c)) c = c := by
      intro c
      by_cases h : (c.id == cust.id) = true
      · simp [Function.comp, h, add_sub_cancel_right]
      · simp [Function.comp, h]
    rw [List.map_id'' hcomp]
  · rw [h3, List.filter_append]
    have hkeep : db.transactions.filter
        (fun t => !(t.id == db.nextId)) = db.transactions := by
      rw [List.filter_eq_self]
      intro t ht
      simpa using hfresh t ht
    rw [hkeep]
    simp

/-- Witness for C3 at the concrete fixture: amount 5000 awarded to
customer 2 and then the created row (id 10) deleted. -/
theorem balance_conservation_witness :
    (transactionsDELETE (transactionsPOST wDB (some "lx_demo") none wTxnBody 0
        false).2 (some wDB.nextId)).1 =
      { status := 200, body := .txnDeleted (calculatePoints 5000) } ∧
    (transactionsDELETE (transactionsPOST wDB (some "lx_demo") none wTxnBody 0
        false).2 (some wDB.nextId)).2.customers = wDB.customers ∧
    (transactionsDELETE (transactionsPOST wDB (some "lx_demo") none wTxnBody 0
        false).2 (some wDB.nextId)).2.transactions = wDB.transactions :=
  balance_conservation wDB "lx_demo" wTxnBody 0 wApiKey wCustomer 5000
    (by rfl) (by rfl) (by rfl) (by norm_num) (Or.inl (by simp [wTxnBody]))
    (by rfl) (by simp [wDB])

/-- C2: No over-redemption: when the resolved customer's balance is below
the resolved reward's requirement, the integration redemption-create
handler answers 400 with the structured insufficient-points error carrying
`{required, available, shortage}`, creates no redemption row, and leaves
the customer table (hence the balance) unchanged. -/
theorem no_over_redemption (db : DB) (K : String) (idemKey : Option String)
    (body : RedCreateBody) (now : Nat) (rec : ApiKey) (cust : Customer)
    (rid : Nat) (reward : Reward)
    (hkey : db.apiKeys.find? (fun x => x.key == K) = some rec)
    (hactive : rec.isActive = true)
    (hidem : checkIdempotency db idemKey rec.businessId now = none)
    (hrid : body.rewardId = some rid)
    (href : body.customerId ≠ none ∨ truthyStr body.customerEmail = true)
    (hfind : findCustomer db body.customerId body.customerEmail rec.businessId
      = some cust)
    (hreward : db.rewards.find?
      (fun r => r.id == rid && r.businessId == rec.businessId) = some reward)
    (hshort : cust.points < reward.pointsRequired) :
    (redemptionsPOST db (some K) idemKey body now false).1 =
      { status := 400,
        body := .insufficientPoints reward.pointsRequired cust.points
          (reward.pointsRequired - cust.points) } ∧
    (redemptionsPOST db (some K) idemKey body now false).2.redemptions =
      db.redemptions ∧
    (redemptionsPOST db (some K) idemKey body now false).2.customers =
      db.customers := by
  have hauth := authenticateApiKey_valid db K now rec hkey hactive
  have hcond : ((some rid : Option Nat) == none
      || (body.customerId == none && !truthyStr body.customerEmail)) = false := by
    rcases href with h | h
    · cases hcid : body.customerId with
      | none => exact absurd hcid h
      | some i => simp [hcid]
    · simp [h]
  simp only [redemptionsPOST, hauth]
  simp only [Bool.not_true, Bool.false_eq_true, if_false, Option.getD_some,
    checkIdempotency_set_apiKeys, hidem, hcond, hrid,
    findCustomer_set_apiKeys, hfind]
  simp only [hreward, if_pos hshort]
  exact ⟨by trivial, by trivial, by trivial⟩

/-- Witness for C2 at the concrete fixture: customer 2 with 40 points
tries to redeem reward 3 requiring 100 points; the shortage is 60. -/
theorem no_over_redemption_witness :
    (redemptionsPOST wDB (some "lx_demo") none wRedBody 0 false).1 =
      { status := 400,
        body := .insufficientPoints wReward.pointsRequired wCustomer.points
          (wReward.pointsRequired - wCustomer.points) } ∧
    (redemptionsPOST wDB (some "lx_demo") none wRedBody 0
        false).2.redemptions = wDB.redemptions ∧
    (redemptionsPOST wDB (some "lx_demo") none wRedBody 0
        false).2.customers = wDB.customers :=
  no_over_redemption wDB "lx_demo" none wRedBody 0 wApiKey wCustomer 3 wReward
    (by rfl) (by rfl) (by rfl) (by rfl) (Or.inl (by simp [wRedBody]))
    (by rfl) (by rfl) (by decide)

/-- In a customer table with duplicate-free emails, a present email
matches exactly one row. -/
theorem length_filter_email (l : List Customer) (email : String)
    (hnd : (l.map (fun c => c.email)).Nodup)
    (hsome : (l.find? (fun c => c.email == email)).isSome) :
    (l.filter (fun c => c.email == email)).length = 1 :=
  length_filter_of_nodup (fun c => c.email) email l hnd hsome

/-- C5: Webhook delivery ceiling and terminal states: a worker pass leaves
`success`/`failed` deliveries untouched (they are never selected, since the
query requires `status = pending` and `attempts < 5`); a selected delivery
whose endpoint answers non-2xx gets its attempts counter incremented by
one and is marked `failed` exactly when the new count reaches 5, staying
`pending` below that; and any delivery that is `success`, `failed`, or at
the attempt ceiling fails the selection predicate, so it is never
delivered again. -/
theorem webhook_delivery_ceiling (db : DB) (outcome : Nat → HttpOutcome)
    (now : Nat) (d : WebhookDelivery)
    (hnd : (db.deliveries.map (fun x => x.id)).Nodup)
    (hd : d ∈ db.deliveries) :
    ((d.status = .success ∨ d.status = .failed) →
      pendingEligible d = false ∧
      d ∈ (processWebhookDeliveries db outcome now).deliveries) ∧
    (d ∈ (db.deliveries.filter pendingEligible).take 50 →
      outcome d.id ≠ .ok2xx →
      deliverWebhook d (outcome d.id) now ∈
        (processWebhookDeliveries db outcome now).deliveries ∧
      (deliverWebhook d (outcome d.id) now).attempts = d.attempts + 1 ∧
      ((deliverWebhook d (outcome d.id) now).status = .failed ↔
        maxAttempts ≤ d.attempts + 1) ∧
      ((deliverWebhook d (outcome d.id) now).status = .pending ↔
        d.attempts + 1 < maxAttempts)) ∧
    (∀ e : WebhookDelivery,
      e.status = .success ∨ e.status = .failed ∨ maxAttempts ≤ e.attempts →
      pendingEligible e = false) := by
  have hterm : ∀ e : WebhookDelivery,
      e.status = .success ∨ e.status = .failed ∨ maxAttempts ≤ e.attempts →
      pendingEligible e = false := by
    intro e he
    rcases he with h | h | h
    · simp [pendingEligible, h]
    · simp [pendingEligible, h]
    · simp [pendingEligible, Nat.not_lt.mpr h]
  refine ⟨?_, ?_, hterm⟩
  · intro hst
    have hpe : pendingEligible d = false := hterm d (by tauto)
    have hany : ((db.deliveries.filter pendingEligible).take 50).any
        (fun b => b.id == d.id) = false := by
      rw [List.any_eq_false]
      intro b hb
      have hbf : b ∈ db.deliveries.filter pendingEligible :=
        List.mem_of_mem_take hb
      have hbm : b ∈ db.deliveries := List.mem_of_mem_filter hbf
      have hbp : pendingEligible b = true := List.of_mem_filter hbf
      intro hbd
      have hbd' : b.id = d.id := by simpa using hbd
      have : b = d := List.inj_on_of_nodup_map hnd hbm hd hbd'
      rw [this, hpe] at hbp
      cases hbp
    constructor
    · exact hpe
    · simp only [processWebhookDeliveries]
      refine List.mem_map.mpr ⟨d, hd, ?_⟩
      rw [hany]
      simp
  · intro hmem hko
    have hany : ((db.deliveries.filter pendingEligible).take 50).any
        (fun b => b.id == d.id) = true :=
      List.any_eq_true.mpr ⟨d, hmem, by simp⟩
    refine ⟨?_, ?_, ?_, ?_⟩
    · simp only [processWebhookDeliveries]
      refine List.mem_map.mpr ⟨d, hd, ?_⟩
      rw [hany]
      simp
    · unfold deliverWebhook
      cases ho : outcome d.id with
      | ok2xx => exact absurd ho hko
      | non2xx => rfl
      | netError => rfl
    · unfold deliverWebhook
      cases ho : outcome d.id with
      | ok2xx => exact absurd ho hko
      | non2xx =>
        by_cases hc : maxAttempts ≤ d.attempts + 1 <;> simp [hc]
      | netError =>
        by_cases hc : maxAttempts ≤ d.attempts + 1 <;> simp [hc]
    · unfold deliverWebhook
      cases ho : outcome d.id with
      | ok2xx => exact absurd ho hko
      | non2xx =>
        by_cases hc : maxAttempts ≤ d.attempts + 1 <;>
          simp [hc, Nat.lt_iff_add_one_le] <;> omega
      | netError =>
        by_cases hc : maxAttempts ≤ d.attempts + 1 <;>
          simp [hc, Nat.lt_iff_add_one_le] <;> omega

/-- Witness for C5 at the concrete fixture: the queued delivery is on
attempts = 4 and the endpoint always answers 500, so the pass marks it
`failed` (4 + 1 reaches the ceiling of 5). -/
theorem webhook_delivery_ceiling_witness :
    ((wDelivery.status = .success ∨ wDelivery.status = .failed) →
      pendingEligible wDelivery = false ∧
      wDelivery ∈ (processWebhookDeliveries wDB5 wOutcome 7).deliveries) ∧
    (wDelivery ∈ (wDB5.deliveries.filter pendingEligible).take 50 →
      wOutcome wDelivery.id ≠ .ok2xx →
      deliverWebhook wDelivery (wOutcome wDelivery.id) 7 ∈
        (processWebhookDeliveries wDB5 wOutcome 7).deliveries ∧
      (deliverWebhook wDelivery (wOutcome wDelivery.id) 7).attempts =
        wDelivery.attempts + 1 ∧
      ((deliverWebhook wDelivery (wOutcome wDelivery.id) 7).status = .failed ↔
        maxAttempts ≤ wDelivery.attempts + 1) ∧
      ((deliverWebhook wDelivery (wOutcome wDelivery.id) 7).status = .pending ↔
        wDelivery.attempts + 1 < maxAttempts)) ∧
    (∀ e : WebhookDelivery,
      e.status = .success ∨ e.status = .failed ∨ maxAttempts ≤ e.attempts →
      pendingEligible e = false) :=
  webhook_delivery_ceiling wDB5 wOutcome 7 wDelivery (by decide) (by decide)

/-- C9: Webhook fan-out: emitting one event creates exactly one pending
delivery record per active registration of the tenant whose subscribed
events contain the event name or the wildcard, and none for any other
registration (the new records' webhook ids are exactly the matching
registrations' ids, in order); in particular, with the two fixture
webhooks both subscribed to `transaction_created`, one emission produces
exactly two delivery records. -/
theorem webhook_fanout :
    (∀ (db : DB) (bid : Nat) (ev : String) (data : EventData) (now : Nat),
      ∃ new : List WebhookDelivery,
        (enqueueWebhook db bid ev data now).deliveries =
          db.deliveries ++ new ∧
        new.map (fun d => d.webhookId) =
          ((db.webhooks.filter (fun w => w.businessId == bid
              && w.isActive)).filter (fun w => matchesEvent w ev)).map
            (fun w => w.id) ∧
        new.length =
          ((db.webhooks.filter (fun w => w.businessId == bid
              && w.isActive)).filter (fun w => matchesEvent w ev)).length ∧
        ∀ d ∈ new, d.status = .pending ∧ d.event = ev ∧
          d.payload = { event := ev, data := data, businessId := bid,
                        timestamp := now }) ∧
    (enqueueWebhook wDB 1 "transaction_created" (.pts 2 50 90 "transaction")
        0).deliveries.length = 2 := by
  constructor
  · intro db bid ev data now
    obtain ⟨new, n', heq, hmap, hprops⟩ := enqueueWebhook_shape db bid ev data now
    refine ⟨new, ?_, hmap, ?_, ?_⟩
    · rw [heq]
    · have := congrArg List.length hmap
      simpa using this
    · intro d hdn
      obtain ⟨hs, he, -, hp⟩ := hprops d hdn
      exact ⟨hs, he, hp⟩
  · rfl

/-- Update branch of the upsert: when a row with the email exists, rewrite
the matching row to `upsertRow` of the found row. -/
theorem upsertCustomer_update_eq (db : DB) (email n : String)
    (p : Option String) (bid : Nat) (c0 : Customer)
    (hf : db.customers.find? (fun x => x.email == email) = some c0) :
    upsertCustomer db email n p bid =
      (upsertRow c0 n p,
       { db with customers := db.customers.map (fun c =>
           if c.email == email then upsertRow c0 n p else c) }) := by
  simp only [upsertCustomer, hf, upsertRow]

/-- Create branch of the upsert: when no row with the email exists, append
`createRow`. -/
theorem upsertCustomer_create_eq (db : DB) (email n : String)
    (p : Option String) (bid : Nat)
    (hf : db.customers.find? (fun x => x.email == email) = none) :
    upsertCustomer db email n p bid =
      (createRow db email n p bid,
       { db with
          customers := db.customers ++ [createRow db email n p bid]
          nextId := db.nextId + 1 }) := by
  simp only [upsertCustomer, hf, createRow]

/-- C8: Upsert idempotence: two customer-upsert calls with the same email
(and possibly different names) leave exactly one customer row with that
email, whose `name` is the second call's value, and whose `points` balance
is untouched by either call — the pre-existing balance when the customer
was present, the schema default 0 when it was created. -/
theorem upsert_idempotence (db : DB) (email n1 n2 : String)
    (p1 p2 : Option String) (bid : Nat)
    (hnd : (db.customers.map (fun c => c.email)).Nodup) :
    ((upsertCustomer (upsertCustomer db email n1 p1 bid).2 email n2 p2
        bid).2.customers.filter (fun c => c.email == email)).length = 1 ∧
    ∀ c ∈ (upsertCustomer (upsertCustomer db email n1 p1 bid).2 email n2 p2
        bid).2.customers, c.email = email →
      c.name = n2 ∧
      c.points = (match db.customers.find? (fun x => x.email == email) with
                  | some c0 => c0.points
                  | none => initialCustomerPoints) := by
  cases hf : db.customers.find? (fun x => x.email == email) with
  | none =>
    have e1 := upsertCustomer_create_eq db email n1 p1 bid hf
    have hfind2 : (db.customers ++ [createRow db email n1 p1 bid]).find?
        (fun x => x.email == email) = some (createRow db email n1 p1 bid) := by
      rw [List.find?_append, hf, Option.none_or,
        List.find?_cons_of_pos _ (by simp [createRow])]
    have e2 := upsertCustomer_update_eq
      { db with
         customers := db.customers ++ [createRow db email n1 p1 bid]
         nextId := db.nextId + 1 } email n2 p2 bid
      (createRow db email n1 p1 bid) hfind2
    rw [e1]
    dsimp only
    rw [e2]
    dsimp only
    have hg : ∀ x : Customer, (x.email == email) = true →
        (if x.email == email then upsertRow (createRow db email n1 p1 bid) n2 p2
         else x) = upsertRow (createRow db email n1 p1 bid) n2 p2 := by
      intro x hx
      rw [if_pos hx]
    have hfix : ∀ x : Customer, (x.email == email) = false →
        (if x.email == email then upsertRow (createRow db email n1 p1 bid) n2 p2
         else x) = x := by
      intro x hx
      rw [if_neg (by simp [hx])]
    have hu : (((upsertRow (createRow db email n1 p1 bid) n2 p2)).email
        == email) = true := by
      simp [upsertRow, createRow]
    constructor
    · rw [filter_map_update _ _ _ _ hg hfix hu, List.length_replicate,
        List.filter_append]
      have hnil : db.customers.filter (fun c => c.email == email) = [] :=
        List.filter_eq_nil_iff.mpr (List.find?_eq_none.mp hf)
      rw [hnil]
      simp [createRow]
    · intro c hc hce
      have hcu := mem_map_update _ _ _ _ hg hfix c hc (by simp [hce])
      rw [hcu]
      exact ⟨rfl, rfl⟩
  | some c0 =>
    have hc0e : (c0.email == email) = true := by
      have h := List.find?_some hf
      simpa using h
    have e1 := upsertCustomer_update_eq db email n1 p1 bid c0 hf
    have hpres : ∀ x : Customer,
        ((if x.email == email then upsertRow c0 n1 p1 else x).email == email)
          = (x.email == email) := by
      intro x
      by_cases hx : (x.email == email) = true
      · rw [if_pos hx, hx]
        simpa [upsertRow] using hc0e
      · rw [if_neg (by simpa using hx)]
    have hfind1 : (db.customers.map (fun c =>
        if c.email == email then upsertRow c0 n1 p1 else c)).find?
          (fun x => x.email == email) = some (upsertRow c0 n1 p1) := by
      rw [find?_map_of_pred _ _ _ hpres, hf]
      have hmap : Option.map (fun c : Customer =>
          if c.email == email then upsertRow c0 n1 p1 else c) (some c0) =
          some (if (c0.email == email) = true then upsertRow c0 n1 p1
            else c0) := rfl
      rw [hmap, if_pos hc0e]
    have e2 := upsertCustomer_update_eq
      { db with customers := db.customers.map (fun c =>
          if c.email == email then upsertRow c0 n1 p1 else c) }
      email n2 p2 bid (upsertRow c0 n1 p1) hfind1
    rw [e1]
    dsimp only
    rw [e2]
    dsimp only
    have hg : ∀ x : Customer, (x.email == email) = true →
        (if x.email == email then upsertRow (upsertRow c0 n1 p1) n2 p2
         else x) = upsertRow (upsertRow c0 n1 p1) n2 p2 := by
      intro x hx
      rw [if_pos hx]
    have hfix : ∀ x : Customer, (x.email == email) = false →
        (if x.email == email then upsertRow (upsertRow c0 n1 p1) n2 p2
         else x) = x := by
      intro x hx
      rw [if_neg (by simp [hx])]
    have hu : ((upsertRow (upsertRow c0 n1 p1) n2 p2).email == email)
        = true := by
      simpa [upsertRow] using hc0e
    have hg1 : ∀ x : Customer, (x.email == email) = true →
        (if x.email == email then upsertRow c0 n1 p1 else x)
          = upsertRow c0 n1 p1 := by
      intro x hx
      rw [if_pos hx]
    have hfix1 : ∀ x : Customer, (x.email == email) = false →
        (if x.email == email then upsertRow c0 n1 p1 else x) = x := by
      intro x hx
      rw [if_neg (by simp [hx])]
    have hu1 : ((upsertRow c0 n1 p1).email == email) = true := by
      simpa [upsertRow] using hc0e
    constructor
    · rw [filter_map_update _ _ _ _ hg hfix hu, List.length_replicate,
        filter_map_update _ _ _ _ hg1 hfix1 hu1, List.length_replicate]
      exact length_filter_email db.customers email hnd (by rw [hf]; rfl)
    · intro c hc hce
      have hcu := mem_map_update _ _ _ _ hg hfix c hc (by simp [hce])
      rw [hcu]
      exact ⟨rfl, rfl⟩

/-- Witness for C8 at the concrete fixture: upserting "ada@example.com"
twice with names "Ada L." then "Countess Ada" leaves one row with that
email, named by the second call, with the pre-existing 40 points. -/
theorem upsert_idempotence_witness :
    ((upsertCustomer (upsertCustomer wDB "ada@example.com" "Ada L." none
        1).2 "ada@example.com" "Countess Ada" none
        1).2.customers.filter
        (fun c => c.email == "ada@example.com")).length = 1 ∧
    ∀ c ∈ (upsertCustomer (upsertCustomer wDB "ada@example.com" "Ada L."
        none 1).2 "ada@example.com" "Countess Ada" none 1).2.customers,
      c.email = "ada@example.com" →
      c.name = "Countess Ada" ∧
      c.points = (match wDB.customers.find?
          (fun x => x.email == "ada@example.com") with
        | some c0 => c0.points
        | none => initialCustomerPoints) :=
  upsert_idempotence wDB "ada@example.com" "Ada L." "Countess Ada" none none
    1 (by decide)

/-- C6 (failing input): the customer-upsert handler takes the update
branch — the customer count stays 1 and the existing row is renamed — yet
a `customer_created` delivery is still enqueued, because the source calls
`enqueueWebhook(businessId, 'customer_created', customer)` unconditionally
after the upsert rather than only on the create branch. -/
theorem customer_created_emitted_on_update :
    (customersPOST wDB6 (some "lx_demo") none wCustBody 0
        false).2.customers.length = 1 ∧
    (customersPOST wDB6 (some "lx_demo") none wCustBody 0
        false).2.customers.map (fun c => c.name) = ["Ada Lovelace"] ∧
    (customersPOST wDB6 (some "lx_demo") none wCustBody 0
        false).2.deliveries.map (fun d => d.event) = ["customer_created"] ∧
    (customersPOST wDB6 (some "lx_demo") none wCustBody 0
        false).1.status = 200 := by
  refine ⟨rfl, rfl, rfl, rfl⟩

/-- C7 (counterexample): with the fixture's valid, active API key, a
failure of the `lastUsedAt` update (`updateThrows = true`) makes
`authenticateApiKey` return `success = false` — the claim that
authentication still succeeds is false on the code. -/
theorem lastUsedAt_failure_fails_auth_cex :
    wDB.apiKeys.find? (fun x => x.key == "lx_demo") = some wApiKey ∧
    wApiKey.isActive = true ∧
    (authenticateApiKey wDB (some "lx_demo") 0 true).1.success = false ∧
    (authenticateApiKey wDB (some "lx_demo") 0 true).1.error =
      some "Authentication failed" :=
  ⟨rfl, rfl, rfl, rfl⟩

/-- C7 (amended): the `lastUsedAt` write is awaited inside the same
`try`/`catch` as the lookup, so it is on the critical path: for every
request carrying a valid active API key, a failure while recording
`lastUsedAt` makes authentication fail with the generic
`Authentication failed` error (leaving the store unchanged), while a
succeeding write yields success with the resolved tenant identity. -/
theorem api_key_auth_lastUsedAt_on_critical_path (db : DB) (K : String)
    (now : Nat) (rec : ApiKey)
    (hfind : db.apiKeys.find? (fun x => x.key == K) = some rec)
    (hactive : rec.isActive = true) :
    (authenticateApiKey db (some K) now true).1 =
      { success := false, businessId := none, environment := none,
        error := some "Authentication failed" } ∧
    (authenticateApiKey db (some K) now true).2 = db ∧
    (authenticateApiKey db (some K) now false).1 =
      { success := true, businessId := some rec.businessId,
        environment := some rec.environment, error := none } := by
  refine ⟨?_, ?_, ?_⟩
  · simp only [authenticateApiKey, hfind]
    simp [hactive]
  · simp only [authenticateApiKey, hfind]
    simp [hactive]
  · rw [authenticateApiKey_valid db K now rec hfind hactive]

/-- Witness for the amended C7 at the concrete fixture. -/
theorem api_key_auth_lastUsedAt_on_critical_path_witness :
    (authenticateApiKey wDB (some "lx_demo") 0 true).1 =
      { success := false, businessId := none, environment := none,
        error := some "Authentication failed" } ∧
    (authenticateApiKey wDB (some "lx_demo") 0 true).2 = wDB ∧
    (authenticateApiKey wDB (some "lx_demo") 0 false).1 =
      { success := true, businessId := some wApiKey.businessId,
        environment := some wApiKey.environment, error := none } :=
  api_key_auth_lastUsedAt_on_critical_path wDB "lx_demo" 0 wApiKey
    (by rfl) (by rfl)

/-- C10: the dashboard transaction update and delete handlers perform no
authentication: their responses never carry status 401, they are entirely
independent of the stored API keys (no credential or tenant-scope check is
consulted), and for any request naming an existing transaction id they
perform the mutation — delete removes the row and decrements the owner's
points by `calculatePoints amount`; update with a changed amount adjusts
the owner's points by the recomputed difference — answering 200. -/
theorem dashboard_txn_write_handlers_unauthenticated :
    (∀ (db : DB) (idP : Option Nat) (body : TxnUpdateBody),
      (transactionsPUT db idP body).1.status ≠ 401 ∧
      (transactionsDELETE db idP).1.status ≠ 401) ∧
    (∀ (db : DB) (ks : List ApiKey) (idP : Option Nat) (body : TxnUpdateBody),
      (transactionsPUT { db with apiKeys := ks } idP body).1 =
        (transactionsPUT db idP body).1 ∧
      (transactionsDELETE { db with apiKeys := ks } idP).1 =
        (transactionsDELETE db idP).1) ∧
    (∀ (db : DB) (i : Nat) (t : Transaction),
      db.transactions.find? (fun x => x.id == i) = some t →
      (transactionsDELETE db (some i)).1 =
        { status := 200, body := .txnDeleted (calculatePoints t.amount) } ∧
      (transactionsDELETE db (some i)).2.transactions =
        db.transactions.filter (fun x => !(x.id == i)) ∧
      (transactionsDELETE db (some i)).2.customers =
        db.customers.map (fun c =>
          if c.id == t.customerId then
            { c with points := c.points - calculatePoints t.amount }
          else c)) ∧
    (∀ (db : DB) (i : Nat) (t : Transaction) (body : TxnUpdateBody) (a : ℚ),
      db.transactions.find? (fun x => x.id == i) = some t →
      body.amount = some a → a ≠ 0 → a ≠ t.amount →
      (transactionsPUT db (some i) body).1 =
        { status := 200,
          body := .txnUpdated i
            (some (calculatePoints a - calculatePoints t.amount)) } ∧
      (transactionsPUT db (some i) body).2.customers =
        db.customers.map (fun c =>
          if c.id == t.customerId then
            { c with points := c.points +
                (calculatePoints a - calculatePoints t.amount) }
          else c)) := by
  refine ⟨?_, ?_, ?_, ?_⟩
  · intro db idP body
    cases idP with
    | none => exact ⟨by simp [transactionsPUT], by simp [transactionsDELETE]⟩
    | some i =>
      cases hfd : db.transactions.find? (fun x => x.id == i) with
      | none =>
        exact ⟨by simp [transactionsPUT, hfd],
          by simp [transactionsDELETE, hfd]⟩
      | some t =>
        constructor
        · by_cases hc : (truthyRat body.amount
              && !(body.amount.getD 0 == t.amount)) = true
          · simp [transactionsPUT, hfd, hc]
          · simp [transactionsPUT, hfd, hc]
        · simp [transactionsDELETE, hfd]
  · intro db ks idP body
    constructor
    · cases idP with
      | none => rfl
      | some i =>
        simp only [transactionsPUT]
        cases hfd : db.transactions.find? (fun x => x.id == i) with
        | none => rfl
        | some t =>
          dsimp only
          by_cases hc : (truthyRat body.amount
              && !(body.amount.getD 0 == t.amount)) = true
          · rw [if_pos hc, if_pos hc]
          · rw [if_neg hc, if_neg hc]
    · cases idP with
      | none => rfl
      | some i =>
        simp only [transactionsDELETE]
        cases hfd : db.transactions.find? (fun x => x.id == i) with
        | none => rfl
        | some t => rfl
  · intro db i t hfd
    simp only [transactionsDELETE, hfd]
    exact ⟨by trivial, by trivial, by trivial⟩
  · intro db i t body a hfd hamount ha0 hne
    have hc : (truthyRat (some a) && !((a : ℚ) == t.amount)) = true := by
      simp [truthyRat, ha0, hne]
    simp only [transactionsPUT, hfd, hamount, Option.getD_some, if_pos hc]
    exact ⟨by trivial, by trivial⟩

/-- Witness for C10 at the concrete fixture: deleting transaction 9
(Rs. 2500) and updating it to Rs. 7500 both succeed without any
credential. -/
theorem dashboard_txn_write_handlers_unauthenticated_witness :
    ((transactionsDELETE wDB10 (some 9)).1 =
      { status := 200, body := .txnDeleted (calculatePoints wTxn.amount) }) ∧
    ((transactionsPUT wDB10 (some 9) wPutBody).1 =
      { status := 200,
        body := .txnUpdated 9
          (some (calculatePoints 7500 - calculatePoints wTxn.amount)) }) :=
  ⟨(dashboard_txn_write_handlers_unauthenticated.2.2.1 wDB10 9 wTxn
      (by rfl)).1,
   (dashboard_txn_write_handlers_unauthenticated.2.2.2 wDB10 9 wTxn wPutBody
      7500 (by rfl) (by rfl) (by norm_num)
      (by rw [show wTxn.amount = (2500 : ℚ) from rfl]; norm_num)).1⟩

/-- Witness for C9: the concrete two-webhook fan-out instance. -/
theorem webhook_fanout_witness :
    (enqueueWebhook wDB 1 "transaction_created" (.pts 2 50 90 "transaction")
        0).deliveries.length = 2 :=
  webhook_fanout.2

/-- C4: Points truncation: for every amount, `calculatePoints amount` is
`floor (amount / 100)`; in particular `calculatePoints 99 = 0`,
`calculatePoints 100 = 1` and `calculatePoints 15750 = 157`, and on whole
rupee amounts the floor agrees with truncating natural division by 100.
The function is a pure Lean function, hence deterministic and effect-free. -/
theorem points_truncation :
    (∀ amount : ℚ, calculatePoints amount = ⌊amount / 100⌋) ∧
    calculatePoints 99 = 0 ∧
    calculatePoints 100 = 1 ∧
    calculatePoints 15750 = 157 ∧
    (∀ n : ℕ, calculatePoints (n : ℚ) = Int.ofNat (n / 100)) := by
  have hfloor : ∀ amount : ℚ, calculatePoints amount = ⌊amount / 100⌋ := by
    intro a
    rw [calculatePoints, Rat.floor_def' (a / 100), Rat.floor_def]
  refine ⟨hfloor, ?_, ?_, ?_, fun n => ?_⟩
  · rw [hfloor]; norm_num
  · rw [hfloor]; norm_num
  · rw [hfloor]; norm_num
  · rw [hfloor]
    rw [show ((100 : ℚ)) = ((100 : ℕ) : ℚ) by norm_num,
      Rat.floor_natCast_div_natCast]
    simp [Int.ofNat_eq_natCast]
